import Mathlib

/-!
Shallow embedding of the krc linker's ELF64 reading layer
(src/linker/src/elf.rs, src/linker/src/inputs.rs, src/linker/src/util.rs).

Bytes are modelled as `Nat` values (a Rust `u8` is a value `< 256`); byte
buffers are `List Nat`.  Rust's `u16::from_le_bytes` etc. become the
`u16le`/`u32le`/`u64le` field readers below, indexed by the field's offset
inside the buffer (the Rust code reads the fields sequentially from a cursor;
for a buffer at least as long as the record the two presentations agree).
Fallible Rust functions returning `Result<_, String>` become
`Except String _`.  `mem::size_of::<ElfIdent>()` is 16,
`mem::size_of::<Elf64Header>()` is 64, `mem::size_of::<Elf64SectionHeader>()`
is 64 and `mem::size_of::<Elf64ProgramHeader>()` is 56 (natural packing of
the declared fields, matching the ELF64 on-disk record sizes).
-/

namespace Krc

/-- Little-endian value of the two bytes of `l` at offsets `i`, `i+1`
(Rust `u16::from_le_bytes` on the cursor positioned at `i`). -/
def u16le (l : List Nat) (i : Nat) : Nat :=
  l.getD i 0 + 256 * l.getD (i + 1) 0

/-- Little-endian value of the four bytes of `l` at offsets `i..i+3`. -/
def u32le (l : List Nat) (i : Nat) : Nat :=
  u16le l i + 2 ^ 16 * u16le l (i + 2)

/-- Little-endian value of the eight bytes of `l` at offsets `i..i+7`. -/
def u64le (l : List Nat) (i : Nat) : Nat :=
  u32le l i + 2 ^ 32 * u32le l (i + 4)

/-- Lowercase hexadecimal rendering of a number, as Rust's `{:x}` format. -/
def hexStr (n : Nat) : String :=
  String.mk (Nat.toDigits 16 n)

/-- Decidable equality of decode results. -/
instance {ε α : Type} [DecidableEq ε] [DecidableEq α] :
    DecidableEq (Except ε α) := fun x y =>
  match x, y with
  | .ok a, .ok b =>
    match decEq a b with
    | isTrue h => isTrue (h ▸ rfl)
    | isFalse h => isFalse (by
        intro hc
        cases hc
        exact h rfl)
  | .error a, .error b =>
    match decEq a b with
    | isTrue h => isTrue (h ▸ rfl)
    | isFalse h => isFalse (by
        intro hc
        cases hc
        exact h rfl)
  | .ok _, .error _ => isFalse (by intro hc; cases hc)
  | .error _, .ok _ => isFalse (by intro hc; cases hc)

/-- EI_CLASS values (elf.rs `ElfClass`). -/
inductive ElfClass where
  | None
  | Class32
  | Class64
deriving DecidableEq

/-- elf.rs `ElfClass::try_from` (via `impl_enum_try_from!`). -/
def ElfClass.tryFrom : Nat → Except String ElfClass
  | 0 => .ok .None
  | 1 => .ok .Class32
  | 2 => .ok .Class64
  | _ => .error "invalid ELF class"

/-- EI_DATA values (elf.rs `Encoding`). -/
inductive Encoding where
  | None
  | LSB2
  | MSB2
deriving DecidableEq

/-- elf.rs `Encoding::try_from`. -/
def Encoding.tryFrom : Nat → Except String Encoding
  | 0 => .ok .None
  | 1 => .ok .LSB2
  | 2 => .ok .MSB2
  | _ => .error "invaild encoding"

/-- EI_VERSION values (elf.rs `ElfVersion`). -/
inductive ElfVersion where
  | None
  | Current
deriving DecidableEq

/-- elf.rs `ElfVersion::try_from`. -/
def ElfVersion.tryFrom : Nat → Except String ElfVersion
  | 0 => .ok .None
  | 1 => .ok .Current
  | _ => .error "not supported ELF version"

/-- EI_OSABI values (elf.rs `OsAbi`). -/
inductive OsAbi where
  | SysV
  | HpUx
  | Standalone
deriving DecidableEq

/-- elf.rs `OsAbi::try_from`. -/
def OsAbi.tryFrom : Nat → Except String OsAbi
  | 0 => .ok .SysV
  | 1 => .ok .HpUx
  | 255 => .ok .Standalone
  | _ => .error "not supported OS or ABI"

/-- e_type values (elf.rs `ObjectFileType`). -/
inductive ObjectFileType where
  | None
  | Rel
  | Exec
  | Dyn
  | Core
deriving DecidableEq

/-- elf.rs `ObjectFileType::try_from`. -/
def ObjectFileType.tryFrom : Nat → Except String ObjectFileType
  | 0 => .ok .None
  | 1 => .ok .Rel
  | 2 => .ok .Exec
  | 3 => .ok .Dyn
  | 4 => .ok .Core
  | _ => .error "invalid object file type"

/-- e_machine values (elf.rs `Machine`). -/
inductive Machine where
  | None
  | M32
  | Sparc
  | I386
  | Motorola68K
  | Motorola88K
  | I860
  | Mips
  | X86_64
deriving DecidableEq

/-- elf.rs `Machine::try_from`. -/
def Machine.tryFrom : Nat → Except String Machine
  | 0 => .ok .None
  | 1 => .ok .M32
  | 2 => .ok .Sparc
  | 3 => .ok .I386
  | 4 => .ok .Motorola68K
  | 5 => .ok .Motorola88K
  | 7 => .ok .I860
  | 8 => .ok .Mips
  | 62 => .ok .X86_64
  | _ => .error "invalid machine"

/-- sh_type values (elf.rs `SectionType`). -/
inductive SectionType where
  | Null
  | Progbits
  | Symtab
  | Strtab
  | Rela
  | Hash
  | Dynamic
  | Note
  | Nobits
  | Rel
  | Shlib
  | Dynsym
  | InitArray
  | FiniArray
  | PreinitArray
  | Group
  | SymtabShndx
  | Num
  | Loos
  | GnuAttributes
  | GnuHash
  | GnuLiblist
  | CheckSum
  | GnuVerdef
  | GnuVerneed
  | GnuVersym
deriving DecidableEq

/-- elf.rs `SectionType::try_from`. -/
def SectionType.tryFrom : Nat → Except String SectionType
  | 0 => .ok .Null
  | 1 => .ok .Progbits
  | 2 => .ok .Symtab
  | 3 => .ok .Strtab
  | 4 => .ok .Rela
  | 5 => .ok .Hash
  | 6 => .ok .Dynamic
  | 7 => .ok .Note
  | 8 => .ok .Nobits
  | 9 => .ok .Rel
  | 10 => .ok .Shlib
  | 11 => .ok .Dynsym
  | 14 => .ok .InitArray
  | 15 => .ok .FiniArray
  | 16 => .ok .PreinitArray
  | 17 => .ok .Group
  | 18 => .ok .SymtabShndx
  | 19 => .ok .Num
  | 0x60000000 => .ok .Loos
  | 0x6FFFFFF5 => .ok .GnuAttributes
  | 0x6FFFFFF6 => .ok .GnuHash
  | 0x6FFFFFF7 => .ok .GnuLiblist
  | 0x6FFFFFF8 => .ok .CheckSum
  | 0x6FFFFFFD => .ok .GnuVerdef
  | 0x6FFFFFFE => .ok .GnuVerneed
  | 0x6FFFFFFF => .ok .GnuVersym
  | _ => .error "invalid section type"

/-- p_type values (elf.rs `SegmentType`). -/
inductive SegmentType where
  | Null
  | Load
  | Dynamic
  | Interp
  | Note
  | Shlib
  | Phdr
  | Tls
  | Num
  | GnuEhFrame
  | GnuStack
  | GnuRelro
  | GnuProperty
deriving DecidableEq

/-- elf.rs `SegmentType::try_from`. -/
def SegmentType.tryFrom : Nat → Except String SegmentType
  | 0 => .ok .Null
  | 1 => .ok .Load
  | 2 => .ok .Dynamic
  | 3 => .ok .Interp
  | 4 => .ok .Note
  | 5 => .ok .Shlib
  | 6 => .ok .Phdr
  | 7 => .ok .Tls
  | 8 => .ok .Num
  | 0x6474E550 => .ok .GnuEhFrame
  | 0x6474E551 => .ok .GnuStack
  | 0x6474E552 => .ok .GnuRelro
  | 0x6474E553 => .ok .GnuProperty
  | _ => .error "invalid segment type"

/-- elf.rs `SectionFlag64` (bitflags over `u64`): the decoded flag value is
exactly its raw bit pattern. -/
structure SectionFlag64 where
  bits : Nat
deriving DecidableEq

/-- Named section flag bit SHF_WRITE. -/
def SectionFlag64.WRITE : Nat := 0x1

/-- Named section flag bit SHF_ALLOC. -/
def SectionFlag64.ALLOC : Nat := 0x2

/-- Named section flag bit SHF_EXECINSTR. -/
def SectionFlag64.EXECINSTR : Nat := 0x4

/-- Named section flag bit SHF_MERGE. -/
def SectionFlag64.MERGE : Nat := 0x10

/-- Named section flag bit SHF_STRINGS. -/
def SectionFlag64.STRINGS : Nat := 0x20

/-- Named section flag bit SHF_INFO_LINK. -/
def SectionFlag64.INFO_LINK : Nat := 0x40

/-- Named section flag bit SHF_LINK_ORDER. -/
def SectionFlag64.LINK_ORDER : Nat := 0x80

/-- Named section flag bit SHF_OS_NONCONFORMING. -/
def SectionFlag64.OS_NONCONFORMING : Nat := 0x100

/-- Named section flag bit SHF_GROUP. -/
def SectionFlag64.GROUP : Nat := 0x200

/-- Named section flag bit SHF_TLS. -/
def SectionFlag64.TLS : Nat := 0x400

/-- Named section flag bit SHF_COMPRESSED. -/
def SectionFlag64.COMPRESSED : Nat := 0x800

/-- Union of the named section flag bits (0x1..0x4, 0x10..0x800). -/
def SectionFlag64.NAMED_MASK : Nat := 0xFF7

/-- Full known mask of `SectionFlag64`: the eleven named bits plus the two
reserved ranges `0xF000_0000` (processor-specific) and `0x0F00_0000`
(environment-specific) declared with `const _ =` in the bitflags block. -/
def SectionFlag64.MASK : Nat := 0xFF000FF7

/-- bitflags `SectionFlag64::from_bits`: succeeds exactly when every set bit
of `raw` lies inside the known mask, and then keeps the raw bits unchanged. -/
def SectionFlag64.from_bits (raw : Nat) : Option SectionFlag64 :=
  if raw &&& SectionFlag64.MASK = raw then some ⟨raw⟩ else none

/-- elf.rs `SegmentFlag` (bitflags over `u32`). -/
structure SegmentFlag where
  bits : Nat
deriving DecidableEq

/-- Full known mask of `SegmentFlag`: X | W | R plus the reserved
processor-specific range `0xF000_0000`. -/
def SegmentFlag.MASK : Nat := 0xF0000007

/-- bitflags `SegmentFlag::from_bits`. -/
def SegmentFlag.from_bits (raw : Nat) : Option SegmentFlag :=
  if raw &&& SegmentFlag.MASK = raw then some ⟨raw⟩ else none

/-- elf.rs `ElfIdent`: the 16 identification bytes, with `class` renamed to
`cls` (`class` is a Lean keyword). -/
structure ElfIdent where
  magic : List Nat
  cls : ElfClass
  data : Encoding
  version : ElfVersion
  osabi : OsAbi
  abi_version : Nat
  pad : List Nat
deriving DecidableEq

/-- elf.rs `ElfIdent::from_bytes` on a 16-byte array: checks the magic,
validates class, encoding, version (which must be `Current`) and OS/ABI in
that order, then materializes the struct from the raw bytes (the Rust code
does this with a `transmute`, which copies the bytes field-by-field). -/
def ElfIdent.from_bytes (bytes : List Nat) : Except String ElfIdent :=
  if bytes.take 4 ≠ [0x7F, 0x45, 0x4C, 0x46] then
    .error "magic is not for ELF"
  else
    match ElfClass.tryFrom (bytes.getD 4 0) with
    | .error e => .error e
    | .ok cls =>
      match Encoding.tryFrom (bytes.getD 5 0) with
      | .error e => .error e
      | .ok data =>
        match ElfVersion.tryFrom (bytes.getD 6 0) with
        | .error e => .error e
        | .ok version =>
          if version ≠ ElfVersion.Current then
            .error "invaild ELF version"
          else
            match OsAbi.tryFrom (bytes.getD 7 0) with
            | .error e => .error e
            | .ok osabi =>
              .ok { magic := bytes.take 4, cls := cls, data := data,
                    version := version, osabi := osabi,
                    abi_version := bytes.getD 8 0,
                    pad := (bytes.drop 9).take 7 }

/-- elf.rs `Elf64Header`. -/
structure Elf64Header where
  ident : ElfIdent
  ty : ObjectFileType
  machine : Machine
  version : Nat
  entry : Nat
  phoff : Nat
  shoff : Nat
  flags : Nat
  ehsize : Nat
  phentsize : Nat
  phnum : Nat
  shentsize : Nat
  shnum : Nat
  shstrndx : Nat
deriving DecidableEq

/-- elf.rs `Elf64Header::from_bytes` on the 48 bytes following the
identification block: object type (u16), machine (u16), version (u32, must
equal `ElfVersion::Current as u32 = 1`), then entry, phoff, shoff (u64),
flags (u32) and the five u16 table-shape fields, all little-endian in file
order. -/
def Elf64Header.from_bytes (ident : ElfIdent) (left : List Nat) :
    Except String Elf64Header :=
  match ObjectFileType.tryFrom (u16le left 0) with
  | .error e => .error e
  | .ok ty =>
    match Machine.tryFrom (u16le left 2) with
    | .error e => .error e
    | .ok machine =>
      if u32le left 4 ≠ 1 then
        .error "invalid ELF version"
      else
        .ok { ident := ident, ty := ty, machine := machine,
              version := u32le left 4,
              entry := u64le left 8, phoff := u64le left 16,
              shoff := u64le left 24, flags := u32le left 32,
              ehsize := u16le left 36, phentsize := u16le left 38,
              phnum := u16le left 40, shentsize := u16le left 42,
              shnum := u16le left 44, shstrndx := u16le left 46 }

/-- elf.rs `Elf64SectionHeader`. -/
structure Elf64SectionHeader where
  name : Nat
  ty : SectionType
  flags : SectionFlag64
  addr : Nat
  offset : Nat
  size : Nat
  link : Nat
  info : Nat
  addralign : Nat
  entsize : Nat
deriving DecidableEq

/-- elf.rs `Elf64ProgramHeader`. -/
structure Elf64ProgramHeader where
  ty : SegmentType
  flags : SegmentFlag
  offset : Nat
  vaddr : Nat
  paddr : Nat
  filesz : Nat
  memsz : Nat
  align : Nat
deriving DecidableEq

/-- inputs.rs `ObjectFile`: the decoded header plus the raw trailing bytes. -/
structure ObjectFile where
  header : Elf64Header
  data : List Nat
deriving DecidableEq

/-- Pure byte-level semantics of `ObjectFile::from_reader`: the reader loops
guarantee that exactly the first 16 bytes form the identification block
(error `ident contains N bytes` when the stream is shorter), the next 48
bytes form the rest of the header (error `invalid ELF header` when absent),
and the whole remainder becomes the trailing buffer.  `from_reader` over any
well-behaved chunked byte source reduces to this function (theorem
`from_reader_eq_fromBytes` below). -/
def ObjectFile.fromBytes (stream : List Nat) : Except String ObjectFile :=
  if stream.length < 16 then
    .error ("ident contains " ++ toString stream.length ++ " bytes")
  else
    match ElfIdent.from_bytes (stream.take 16) with
    | .error e => .error e
    | .ok ident =>
      if ident.cls ≠ ElfClass.Class64 ∨ ident.data ≠ Encoding.LSB2 ∨
          ident.osabi ≠ OsAbi.SysV then
        .error "unsupported format"
      else if stream.length < 64 then
        .error "invalid ELF header"
      else
        match Elf64Header.from_bytes ident ((stream.drop 16).take 48) with
        | .error e => .error e
        | .ok header => .ok { header := header, data := stream.drop 64 }

/-- Deterministic model of a `std::io::Read` byte source: the list of chunk
results its successive `read` calls produce.  A `read` into a buffer of `n`
free bytes takes up to `n` bytes from the front chunk (keeping any leftover
of that chunk for the next call); an empty chunk list, or an empty chunk,
models a `read` returning `Ok(0)` (end of input). -/
def readExact : Nat → List (List Nat) → (List Nat × List (List Nat)) ⊕ Nat
  | 0, chunks => .inl ([], chunks)
  | _ + 1, [] => .inr 0
  | n + 1, c :: rest =>
    match c with
    | [] => .inr 0
    | b :: bs =>
      if n + 1 < (b :: bs).length then
        .inl ((b :: bs).take (n + 1), (b :: bs).drop (n + 1) :: rest)
      else
        match readExact (n + 1 - (b :: bs).length) rest with
        | .inl (xs, rem) => .inl (b :: bs ++ xs, rem)
        | .inr m => .inr ((b :: bs).length + m)

/-- Model of `Read::read_to_end` on the chunked source: concatenates chunks
until the source reports `Ok(0)` (an empty chunk or exhaustion). -/
def readToEnd : List (List Nat) → List Nat
  | [] => []
  | c :: rest => if c.isEmpty then [] else c ++ readToEnd rest

/-- inputs.rs `ObjectFile::from_reader` over the chunked byte-source model:
loop-reads the 16 identification bytes (error `ident contains N bytes` if the
source ends first), decodes and applies the acceptance policy (64-bit class,
little-endian, SysV OS/ABI, else `unsupported format`), loop-reads the 48
remaining header bytes (error `invalid ELF header` if the source ends first),
decodes the header, and reads the rest of the source as the trailing
buffer. -/
def ObjectFile.from_reader (chunks : List (List Nat)) :
    Except String ObjectFile :=
  match readExact 16 chunks with
  | .inr m => .error ("ident contains " ++ toString m ++ " bytes")
  | .inl (identBytes, rest) =>
    match ElfIdent.from_bytes identBytes with
    | .error e => .error e
    | .ok ident =>
      if ident.cls ≠ ElfClass.Class64 ∨ ident.data ≠ Encoding.LSB2 ∨
          ident.osabi ≠ OsAbi.SysV then
        .error "unsupported format"
      else
        match readExact 48 rest with
        | .inr _ => .error "invalid ELF header"
        | .inl (left, rest2) =>
          match Elf64Header.from_bytes ident left with
          | .error e => .error e
          | .ok header => .ok { header := header, data := readToEnd rest2 }

/-- inputs.rs `SectionHeaderIter`: a borrowed window into the trailing
buffer, the declared entry count (`u16 shnum`), and the byte position. -/
structure SectionHeaderIter where
  head : List Nat
  len : Nat
  pos : Nat
deriving DecidableEq

/-- inputs.rs `ProgramHeaderIter`. -/
structure ProgramHeaderIter where
  head : List Nat
  len : Nat
  pos : Nat
deriving DecidableEq

/-- inputs.rs `<SectionHeaderIter as Iterator>::next`, as an explicit state
transformer: the produced item (with `none` for Rust's `None`) paired with
the successor state.  `size_of::<Elf64SectionHeader>()` is 64.  The length of
Rust's `self.head[self.pos..]` is `head.length - pos` (truncated
subtraction; every state reachable from a fresh iterator keeps
`pos ≤ head.length`).  The cursor advances only on a successfully decoded
entry. -/
def SectionHeaderIter.next (it : SectionHeaderIter) :
    Option (Except String Elf64SectionHeader) × SectionHeaderIter :=
  if 64 * it.len ≤ it.pos then
    (none, it)
  else if it.head.length - it.pos < 64 then
    (some (.error "the size of a section header is invalid"), it)
  else
    let entry := (it.head.drop it.pos).take 64
    match SectionType.tryFrom (u32le entry 4) with
    | .error e => (some (.error e), it)
    | .ok ty =>
      match SectionFlag64.from_bits (u64le entry 8) with
      | none =>
        (some (.error ("a section has invalid flags: 0x" ++
          hexStr (u64le entry 8))), it)
      | some flags =>
        let hdr : Elf64SectionHeader :=
          { name := u32le entry 0, ty := ty, flags := flags,
            addr := u64le entry 16, offset := u64le entry 24,
            size := u64le entry 32, link := u32le entry 40,
            info := u32le entry 44, addralign := u64le entry 48,
            entsize := u64le entry 56 }
        (some (.ok hdr), { it with pos := it.pos + 64 })

/-- inputs.rs `<ProgramHeaderIter as Iterator>::next`:
`size_of::<Elf64ProgramHeader>()` is 56; note the error message for invalid
segment flags really says `a section has invalid flags` with no `0x` prefix
in the source. -/
def ProgramHeaderIter.next (it : ProgramHeaderIter) :
    Option (Except String Elf64ProgramHeader) × ProgramHeaderIter :=
  if 56 * it.len ≤ it.pos then
    (none, it)
  else if it.head.length - it.pos < 56 then
    (some (.error "the size of a program header is invalid"), it)
  else
    let entry := it.head.drop it.pos
    match SegmentType.tryFrom (u32le entry 0) with
    | .error e => (some (.error e), it)
    | .ok ty =>
      match SegmentFlag.from_bits (u32le entry 4) with
      | none =>
        (some (.error ("a section has invalid flags: " ++
          hexStr (u32le entry 4))), it)
      | some flags =>
        let hdr : Elf64ProgramHeader :=
          { ty := ty, flags := flags,
            offset := u64le entry 8, vaddr := u64le entry 16,
            paddr := u64le entry 24, filesz := u64le entry 32,
            memsz := u64le entry 40, align := u64le entry 48 }
        (some (.ok hdr), { it with pos := it.pos + 56 })

/-- State reached after pulling a section header iterator `k` times. -/
def SectionHeaderIter.stepN (it : SectionHeaderIter) : Nat → SectionHeaderIter
  | 0 => it
  | k + 1 => SectionHeaderIter.stepN it.next.2 k

/-- State reached after pulling a program header iterator `k` times. -/
def ProgramHeaderIter.stepN (it : ProgramHeaderIter) : Nat → ProgramHeaderIter
  | 0 => it
  | k + 1 => ProgramHeaderIter.stepN it.next.2 k

/-- inputs.rs `ObjectFile::section_headers`: when `shoff` is non-zero the
window is `&self.data[shoff - size_of::<Elf64Header>()..]`; the Rust slicing
panics when `shoff < 64` (subtraction underflow) or when the start index
exceeds `data.len()`, which is modelled by `none`.  When `shoff = 0` the
iterator covers the whole buffer with a declared count of zero. -/
def ObjectFile.section_headers (o : ObjectFile) : Option SectionHeaderIter :=
  if o.header.shoff ≠ 0 then
    if 64 ≤ o.header.shoff ∧ o.header.shoff - 64 ≤ o.data.length then
      some { head := o.data.drop (o.header.shoff - 64),
             len := o.header.shnum, pos := 0 }
    else none
  else
    some { head := o.data, len := 0, pos := 0 }

/-- inputs.rs `ObjectFile::program_headers`, symmetric to
`section_headers` with `phoff`/`phnum`. -/
def ObjectFile.program_headers (o : ObjectFile) : Option ProgramHeaderIter :=
  if o.header.phoff ≠ 0 then
    if 64 ≤ o.header.phoff ∧ o.header.phoff - 64 ≤ o.data.length then
      some { head := o.data.drop (o.header.phoff - 64),
             len := o.header.phnum, pos := 0 }
    else none
  else
    some { head := o.data, len := 0, pos := 0 }

/-! Concrete example inputs used by witness and counterexample theorems. -/

/-- A minimal valid 64-byte ELF stream: magic, class 64, little-endian,
version 1, SysV; object type `Rel`, machine `X86_64`, version 1; every
offset, size and count field zero. -/
def exStream64 : List Nat :=
  [0x7F, 0x45, 0x4C, 0x46, 2, 1, 1, 0, 0, 0, 0, 0, 0, 0, 0, 0,
   1, 0, 62, 0, 1, 0, 0, 0,
   0, 0, 0, 0, 0, 0, 0, 0,
   0, 0, 0, 0, 0, 0, 0, 0,
   0, 0, 0, 0, 0, 0, 0, 0,
   0, 0, 0, 0, 0, 0, 0, 0,
   0, 0, 0, 0, 0, 0, 0, 0]

/-- Like `exStream64` but with identification class byte 3 (not a valid
`ElfClass` raw value). -/
def exStreamClass3 : List Nat := exStream64.set 4 3

/-- Like `exStream64` but with identification class byte 1 (32-bit). -/
def exStreamClass1 : List Nat := exStream64.set 4 1

/-- Sixteen identification bytes whose magic is broken in the first byte. -/
def exBadMagic : List Nat :=
  [0, 0x45, 0x4C, 0x46, 2, 1, 1, 0, 0, 0, 0, 0, 0, 0, 0, 0]

/-- Example header for building `ObjectFile` values directly: ident as in
`exStream64`, type `Rel`, machine `X86_64`, version 1, all remaining fields
zero except the given table offsets and counts. -/
def exHeader (shoff phoff shnum phnum : Nat) : Elf64Header :=
  { ident :=
      { magic := [0x7F, 0x45, 0x4C, 0x46], cls := .Class64,
        data := .LSB2, version := .Current, osabi := .SysV,
        abi_version := 0, pad := [0, 0, 0, 0, 0, 0, 0] },
    ty := .Rel, machine := .X86_64, version := 1, entry := 0,
    phoff := phoff, shoff := shoff, flags := 0, ehsize := 0,
    phentsize := 0, phnum := phnum, shentsize := 0, shnum := shnum,
    shstrndx := 0 }

/-- A 64-byte section header entry whose type raw value is 0 (`Null`) and
whose flags raw value is 0x8, a bit outside the known section flag mask. -/
def exBadFlagsEntry : List Nat :=
  [0, 0, 0, 0, 0, 0, 0, 0, 8, 0, 0, 0, 0, 0, 0, 0,
   0, 0, 0, 0, 0, 0, 0, 0, 0, 0, 0, 0, 0, 0, 0, 0,
   0, 0, 0, 0, 0, 0, 0, 0, 0, 0, 0, 0, 0, 0, 0, 0,
   0, 0, 0, 0, 0, 0, 0, 0, 0, 0, 0, 0, 0, 0, 0, 0]

/-! Helper lemmas about the little-endian field readers. -/

theorem getD_drop (l : List Nat) (n i : Nat) :
    (l.drop n).getD i 0 = l.getD (n + i) 0 := by
  simp [List.getD_eq_getD_get?, List.get?_eq_getElem?, List.getElem?_drop]

theorem getD_take_of_lt (l : List Nat) (n i : Nat) (h : i < n) :
    (l.take n).getD i 0 = l.getD i 0 := by
  simp [List.getD_eq_getD_get?, List.get?_eq_getElem?, List.getElem?_take_of_lt h]

theorem u16le_take (l : List Nat) (n i : Nat) (h : i + 1 < n) :
    u16le (l.take n) i = u16le l i := by
  unfold u16le
  rw [getD_take_of_lt _ _ _ (by omega), getD_take_of_lt _ _ _ h]

theorem u16le_drop (l : List Nat) (n i : Nat) :
    u16le (l.drop n) i = u16le l (n + i) := by
  unfold u16le
  rw [getD_drop, getD_drop, Nat.add_assoc]

theorem u32le_take (l : List Nat) (n i : Nat) (h : i + 3 < n) :
    u32le (l.take n) i = u32le l i := by
  unfold u32le
  rw [u16le_take _ _ _ (by omega), u16le_take _ _ _ (by omega)]

theorem u32le_drop (l : List Nat) (n i : Nat) :
    u32le (l.drop n) i = u32le l (n + i) := by
  unfold u32le
  rw [u16le_drop, u16le_drop, Nat.add_assoc]

theorem u64le_take (l : List Nat) (n i : Nat) (h : i + 7 < n) :
    u64le (l.take n) i = u64le l i := by
  unfold u64le
  rw [u32le_take _ _ _ (by omega), u32le_take _ _ _ (by omega)]

theorem u64le_drop (l : List Nat) (n i : Nat) :
    u64le (l.drop n) i = u64le l (n + i) := by
  unfold u64le
  rw [u32le_drop, u32le_drop, Nat.add_assoc]

theorem u16le_drop_take (l : List Nat) (n m i : Nat) (h : i + 1 < m) :
    u16le ((l.drop n).take m) i = u16le l (n + i) := by
  rw [u16le_take _ _ _ h, u16le_drop]

theorem u32le_drop_take (l : List Nat) (n m i : Nat) (h : i + 3 < m) :
    u32le ((l.drop n).take m) i = u32le l (n + i) := by
  rw [u32le_take _ _ _ h, u32le_drop]

theorem u64le_drop_take (l : List Nat) (n m i : Nat) (h : i + 7 < m) :
    u64le ((l.drop n).take m) i = u64le l (n + i) := by
  rw [u64le_take _ _ _ h, u64le_drop]

/-! Normalization of the chunked-reader loop: over a byte source whose reads
always deliver at least one byte until it is exhausted, `readExact` returns
exactly the first `n` bytes of the concatenated stream and `from_reader`
depends only on that concatenation. -/

theorem readExact_zero (chunks : List (List Nat)) :
    readExact 0 chunks = .inl ([], chunks) := by
  cases chunks with
  | nil => rfl
  | cons c rest => rfl

theorem readExact_succ_nil (n : Nat) : readExact (n + 1) [] = .inr 0 := rfl

theorem readExact_succ_cons (n : Nat) (b : Nat) (bs : List Nat)
    (rest : List (List Nat)) :
    readExact (n + 1) ((b :: bs) :: rest) =
      if n + 1 < (b :: bs).length then
        .inl ((b :: bs).take (n + 1), (b :: bs).drop (n + 1) :: rest)
      else
        match readExact (n + 1 - (b :: bs).length) rest with
        | .inl (xs, rem) => .inl (b :: bs ++ xs, rem)
        | .inr m => .inr ((b :: bs).length + m) := rfl

theorem readExact_spec (chunks : List (List Nat)) : ∀ (n : Nat),
    (∀ c ∈ chunks, c ≠ []) →
    (n ≤ chunks.flatten.length →
      ∃ R, readExact n chunks = .inl (chunks.flatten.take n, R) ∧
        (∀ c ∈ R, c ≠ []) ∧ R.flatten = chunks.flatten.drop n) ∧
    (chunks.flatten.length < n → readExact n chunks = .inr chunks.flatten.length) := by
  induction chunks with
  | nil =>
    intro n _
    constructor
    · intro h
      have hn : n = 0 := by simpa using h
      subst hn
      exact ⟨[], rfl, by simp, by simp⟩
    · intro h
      simp only [List.flatten_nil, List.length_nil] at h ⊢
      cases n with
      | zero => omega
      | succ m => exact readExact_succ_nil m
  | cons c rest ih =>
    intro n hne
    have hcne : c ≠ [] := hne c (by simp)
    obtain ⟨b, bs, rfl⟩ : ∃ b bs, c = b :: bs := by
      cases c with
      | nil => exact absurd rfl hcne
      | cons b bs => exact ⟨b, bs, rfl⟩
    have hrne : ∀ x ∈ rest, x ≠ [] := fun x hx => hne x (by simp [hx])
    have hflat : ((b :: bs) :: rest).flatten = (b :: bs) ++ rest.flatten := by
      simp
    have hflatlen : ((b :: bs) :: rest).flatten.length =
        (b :: bs).length + rest.flatten.length := by
      rw [hflat, List.length_append]
    cases n with
    | zero =>
      constructor
      · intro _
        exact ⟨(b :: bs) :: rest, rfl, hne, by simp⟩
      · intro h
        omega
    | succ m =>
      by_cases hlt : m + 1 < (b :: bs).length
      · constructor
        · intro h
          refine ⟨(b :: bs).drop (m + 1) :: rest, ?_, ?_, ?_⟩
          · rw [readExact_succ_cons, if_pos hlt, hflat,
              List.take_append_of_le_length (by omega)]
          · intro x hx
            rcases List.mem_cons.mp hx with hx1 | hx1
            · subst hx1
              apply List.ne_nil_of_length_pos
              rw [List.length_drop]
              omega
            · exact hrne x hx1
          · rw [hflat, List.drop_append_of_le_length (by omega)]
            simp
        · intro h
          rw [hflatlen] at h
          omega
      · have hkn : (b :: bs).length ≤ m + 1 := by omega
        constructor
        · intro h
          rw [hflatlen] at h
          obtain ⟨R, hRe, hRne, hRj⟩ :=
            (ih (m + 1 - (b :: bs).length) hrne).1 (by omega)
          refine ⟨R, ?_, hRne, ?_⟩
          · rw [readExact_succ_cons, if_neg hlt, hRe, hflat,
              List.take_append_eq_append_take,
              List.take_of_length_le (by omega : (b :: bs).length ≤ m + 1)]
          · rw [hRj, hflat, List.drop_append_eq_append_drop,
              List.drop_of_length_le (by omega : (b :: bs).length ≤ m + 1)]
            simp
        · intro h
          rw [hflatlen] at h
          have hRe := (ih (m + 1 - (b :: bs).length) hrne).2 (by omega)
          rw [readExact_succ_cons, if_neg hlt, hRe]
          have heq : (b :: bs).length + rest.flatten.length =
              ((b :: bs) :: rest).flatten.length := by
            rw [hflatlen]
          show Sum.inr ((b :: bs).length + rest.flatten.length) =
            Sum.inr ((b :: bs) :: rest).flatten.length
          rw [heq]

theorem readToEnd_eq_flatten (chunks : List (List Nat))
    (hne : ∀ c ∈ chunks, c ≠ []) : readToEnd chunks = chunks.flatten := by
  induction chunks with
  | nil => simp [readToEnd]
  | cons c rest ih =>
    have hc : ¬ c.isEmpty := by
      simp [List.isEmpty_iff]
      exact hne c (by simp)
    rw [readToEnd, if_neg hc, ih (fun x hx => hne x (by simp [hx]))]
    simp

theorem from_reader_eq_fromBytes (chunks : List (List Nat))
    (hne : ∀ c ∈ chunks, c ≠ []) :
    ObjectFile.from_reader chunks = ObjectFile.fromBytes chunks.flatten := by
  by_cases h16 : chunks.flatten.length < 16
  · unfold ObjectFile.from_reader ObjectFile.fromBytes
    rw [(readExact_spec chunks 16 hne).2 h16, if_pos h16]
  · obtain ⟨R, hRe, hRne, hRj⟩ := (readExact_spec chunks 16 hne).1 (by omega)
    unfold ObjectFile.from_reader ObjectFile.fromBytes
    rw [hRe, if_neg h16]
    dsimp only
    cases hid : ElfIdent.from_bytes (chunks.flatten.take 16) with
    | error e => rfl
    | ok ident =>
      dsimp only
      by_cases hpol : ident.cls ≠ ElfClass.Class64 ∨ ident.data ≠ Encoding.LSB2 ∨
          ident.osabi ≠ OsAbi.SysV
      · rw [if_pos hpol, if_pos hpol]
      · rw [if_neg hpol, if_neg hpol]
        by_cases h64 : chunks.flatten.length < 64
        · have h48 : R.flatten.length < 48 := by
            rw [hRj, List.length_drop]
            omega
          rw [(readExact_spec R 48 hRne).2 h48, if_pos h64]
        · obtain ⟨R2, hR2e, hR2ne, hR2j⟩ := (readExact_spec R 48 hRne).1 (by
            rw [hRj, List.length_drop]
            omega)
          rw [hR2e, if_neg h64, hRj]
          dsimp only
          cases hh : Elf64Header.from_bytes ident ((chunks.flatten.drop 16).take 48) with
          | error e => rfl
          | ok header =>
            dsimp only
            rw [readToEnd_eq_flatten R2 hR2ne, hR2j, hRj, List.drop_drop]

/-- Computation of `fromBytes` on any byte stream that starts with a valid
64-bit little-endian SysV identification block and a well-formed remaining
header: decoding succeeds and every header field is the little-endian value
of the corresponding literal bytes of the stream (entry at offset 24, phoff
at 32, shoff at 40, flags at 48, then the five 16-bit fields at 52..62). -/
theorem fromBytes_valid (stream : List Nat)
    (hlen : 64 ≤ stream.length)
    (hmagic : stream.take 4 = [0x7F, 0x45, 0x4C, 0x46])
    (hcls : stream.getD 4 0 = 2) (hdata : stream.getD 5 0 = 1)
    (hver : stream.getD 6 0 = 1) (hosabi : stream.getD 7 0 = 0)
    (t : ObjectFileType) (hty : ObjectFileType.tryFrom (u16le stream 16) = .ok t)
    (m : Machine) (hmach : Machine.tryFrom (u16le stream 18) = .ok m)
    (hv32 : u32le stream 20 = 1) :
    ObjectFile.fromBytes stream = .ok
      { header :=
          { ident :=
              { magic := [0x7F, 0x45, 0x4C, 0x46], cls := .Class64,
                data := .LSB2, version := .Current, osabi := .SysV,
                abi_version := stream.getD 8 0,
                pad := ((stream.take 16).drop 9).take 7 },
            ty := t, machine := m, version := 1,
            entry := u64le stream 24, phoff := u64le stream 32,
            shoff := u64le stream 40, flags := u32le stream 48,
            ehsize := u16le stream 52, phentsize := u16le stream 54,
            phnum := u16le stream 56, shentsize := u16le stream 58,
            shnum := u16le stream 60, shstrndx := u16le stream 62 },
        data := stream.drop 64 } := by
  have htk4 : (stream.take 16).take 4 = [0x7F, 0x45, 0x4C, 0x46] := by
    rw [List.take_take]
    simpa using hmagic
  have hg4 : (stream.take 16).getD 4 0 = 2 := by
    rw [getD_take_of_lt _ _ _ (by omega)]
    exact hcls
  have hg5 : (stream.take 16).getD 5 0 = 1 := by
    rw [getD_take_of_lt _ _ _ (by omega)]
    exact hdata
  have hg6 : (stream.take 16).getD 6 0 = 1 := by
    rw [getD_take_of_lt _ _ _ (by omega)]
    exact hver
  have hg7 : (stream.take 16).getD 7 0 = 0 := by
    rw [getD_take_of_lt _ _ _ (by omega)]
    exact hosabi
  have hg8 : (stream.take 16).getD 8 0 = stream.getD 8 0 :=
    getD_take_of_lt _ _ _ (by omega)
  have hident : ElfIdent.from_bytes (stream.take 16) = .ok
      { magic := [0x7F, 0x45, 0x4C, 0x46], cls := .Class64, data := .LSB2,
        version := .Current, osabi := .SysV,
        abi_version := stream.getD 8 0,
        pad := ((stream.take 16).drop 9).take 7 } := by
    unfold ElfIdent.from_bytes
    rw [htk4, hg4, hg5, hg6, hg7, hg8]
    rfl
  have hty16 : u16le ((stream.drop 16).take 48) 0 = u16le stream 16 := by
    rw [u16le_drop_take _ _ _ _ (by omega)]
  have hty18 : u16le ((stream.drop 16).take 48) 2 = u16le stream 18 := by
    rw [u16le_drop_take _ _ _ _ (by omega)]
  have hty20 : u32le ((stream.drop 16).take 48) 4 = u32le stream 20 := by
    rw [u32le_drop_take _ _ _ _ (by omega)]
  have h24 : u64le ((stream.drop 16).take 48) 8 = u64le stream 24 := by
    rw [u64le_drop_take _ _ _ _ (by omega)]
  have h32 : u64le ((stream.drop 16).take 48) 16 = u64le stream 32 := by
    rw [u64le_drop_take _ _ _ _ (by omega)]
  have h40 : u64le ((stream.drop 16).take 48) 24 = u64le stream 40 := by
    rw [u64le_drop_take _ _ _ _ (by omega)]
  have h48f : u32le ((stream.drop 16).take 48) 32 = u32le stream 48 := by
    rw [u32le_drop_take _ _ _ _ (by omega)]
  have h52 : u16le ((stream.drop 16).take 48) 36 = u16le stream 52 := by
    rw [u16le_drop_take _ _ _ _ (by omega)]
  have h54 : u16le ((stream.drop 16).take 48) 38 = u16le stream 54 := by
    rw [u16le_drop_take _ _ _ _ (by omega)]
  have h56 : u16le ((stream.drop 16).take 48) 40 = u16le stream 56 := by
    rw [u16le_drop_take _ _ _ _ (by omega)]
  have h58 : u16le ((stream.drop 16).take 48) 42 = u16le stream 58 := by
    rw [u16le_drop_take _ _ _ _ (by omega)]
  have h60 : u16le ((stream.drop 16).take 48) 44 = u16le stream 60 := by
    rw [u16le_drop_take _ _ _ _ (by omega)]
  have h62 : u16le ((stream.drop 16).take 48) 46 = u16le stream 62 := by
    rw [u16le_drop_take _ _ _ _ (by omega)]
  have hhdr : Elf64Header.from_bytes
      { magic := [0x7F, 0x45, 0x4C, 0x46], cls := .Class64, data := .LSB2,
        version := .Current, osabi := .SysV,
        abi_version := stream.getD 8 0,
        pad := ((stream.take 16).drop 9).take 7 }
      ((stream.drop 16).take 48) = .ok
      { ident :=
          { magic := [0x7F, 0x45, 0x4C, 0x46], cls := .Class64,
            data := .LSB2, version := .Current, osabi := .SysV,
            abi_version := stream.getD 8 0,
            pad := ((stream.take 16).drop 9).take 7 },
        ty := t, machine := m, version := 1,
        entry := u64le stream 24, phoff := u64le stream 32,
        shoff := u64le stream 40, flags := u32le stream 48,
        ehsize := u16le stream 52, phentsize := u16le stream 54,
        phnum := u16le stream 56, shentsize := u16le stream 58,
        shnum := u16le stream 60, shstrndx := u16le stream 62 } := by
    unfold Elf64Header.from_bytes
    rw [hty16, hty18, hty20, hty, hmach, hv32]
    dsimp only
    rw [if_neg (by simp)]
    rw [h24, h32, h40, h48f, h52, h54, h56, h58, h60, h62]
  unfold ObjectFile.fromBytes
  rw [if_neg (by omega), hident]
  dsimp only
  rw [if_neg (by simp), if_neg (by omega), hhdr]

/-- Generic fact about bit masks: when `M` and `C` are disjoint and together
cover all `w` low bits, a `w`-bit value is contained in `M` exactly when it
has no bit in `C`. -/
theorem land_mask_eq_self_iff (raw M C w : Nat) (hw : raw < 2 ^ w)
    (hMC : M &&& C = 0) (hMorC : M ||| C = 2 ^ w - 1) :
    raw &&& M = raw ↔ raw &&& C = 0 := by
  constructor
  · intro h
    apply Nat.eq_of_testBit_eq
    intro i
    rw [Nat.testBit_and, Nat.zero_testBit]
    rcases hr : raw.testBit i with _ | _
    · simp
    · have hM : M.testBit i = true := by
        have h2 := congrArg (fun x => x.testBit i) h
        simp only [Nat.testBit_and, hr] at h2
        simpa using h2
      have hC : C.testBit i = false := by
        have h0 := congrArg (fun x => x.testBit i) hMC
        simp only [Nat.testBit_and, Nat.zero_testBit, hM] at h0
        simpa using h0
      simp [hC]
  · intro h
    apply Nat.eq_of_testBit_eq
    intro i
    rw [Nat.testBit_and]
    rcases hr : raw.testBit i with _ | _
    · simp
    · by_cases hiw : i < w
      · have hCb : C.testBit i = false := by
          have h0 := congrArg (fun x => x.testBit i) h
          simp only [Nat.testBit_and, Nat.zero_testBit, hr] at h0
          simpa using h0
        have hMb : M.testBit i = true := by
          have h1 := congrArg (fun x => x.testBit i) hMorC
          simp only [Nat.testBit_or, Nat.testBit_two_pow_sub_one, hCb] at h1
          simpa [hiw] using h1
        simp [hMb]
      · have hz : raw.testBit i = false := by
          apply Nat.testBit_lt_two_pow
          calc raw < 2 ^ w := hw
            _ ≤ 2 ^ i := Nat.pow_le_pow_right (by norm_num) (by omega)
        rw [hz] at hr
        exact absurd hr (by simp)

/-- raw class values other than 0, 1, 2 are rejected by `ElfClass.tryFrom`. -/
theorem ElfClass.tryFrom_unknown (v : Nat) (h0 : v ≠ 0) (h1 : v ≠ 1)
    (h2 : v ≠ 2) : ElfClass.tryFrom v = .error "invalid ELF class" := by
  match v with
  | 0 => exact absurd rfl h0
  | 1 => exact absurd rfl h1
  | 2 => exact absurd rfl h2
  | n + 3 => rfl

/-- A section header iterator whose pull leaves the state unchanged stays in
that state under any number of pulls. -/
theorem section_stepN_of_fixed (s : SectionHeaderIter)
    (h : s.next.2 = s) : ∀ k, s.stepN k = s := by
  intro k
  induction k with
  | zero => rfl
  | succ k ih =>
    rw [SectionHeaderIter.stepN, h]
    exact ih

/-- A program header iterator whose pull leaves the state unchanged stays in
that state under any number of pulls. -/
theorem program_stepN_of_fixed (p : ProgramHeaderIter)
    (h : p.next.2 = p) : ∀ k, p.stepN k = p := by
  intro k
  induction k with
  | zero => rfl
  | succ k ih =>
    rw [ProgramHeaderIter.stepN, h]
    exact ih

/-- A section header pull either leaves the state unchanged or yields a
successfully decoded entry (the cursor advances only in the latter case). -/
theorem section_next_state (s : SectionHeaderIter) :
    s.next.2 = s ∨ ∃ hdr, s.next.1 = some (.ok hdr) := by
  unfold SectionHeaderIter.next
  split
  · left
    rfl
  · split
    · left
      rfl
    · dsimp only
      split
      · left
        rfl
      · split
        · left
          rfl
        · right
          exact ⟨_, rfl⟩

/-- A program header pull either leaves the state unchanged or yields a
successfully decoded entry. -/
theorem program_next_state (p : ProgramHeaderIter) :
    p.next.2 = p ∨ ∃ hdr, p.next.1 = some (.ok hdr) := by
  unfold ProgramHeaderIter.next
  split
  · left
    rfl
  · split
    · left
      rfl
    · dsimp only
      split
      · left
        rfl
      · split
        · left
          rfl
        · right
          exact ⟨_, rfl⟩

/-! Claim theorems. -/

/-- C1: for every byte source whose stream begins with a valid ELF
identification block (magic 0x7F `E` `L` `F`, class byte 2, encoding byte 1,
version byte 1, OS/ABI byte 0) followed by a well-formed remaining 48-byte
header (object-type and machine raw values in the known sets, 32-bit version
field equal to 1), `ObjectFile.from_reader` succeeds and every field of the
returned header equals the little-endian interpretation of the corresponding
literal bytes of the input, decoded strictly in file order: entry at stream
offset 24, phoff at 32, shoff at 40, flags at 48, ehsize at 52, phentsize at
54, phnum at 56, shentsize at 58, shnum at 60 and shstrndx at 62. -/
theorem from_reader_valid_header (chunks : List (List Nat)) (stream : List Nat)
    (hne : ∀ c ∈ chunks, c ≠ []) (hj : chunks.flatten = stream)
    (hlen : 64 ≤ stream.length)
    (hmagic : stream.take 4 = [0x7F, 0x45, 0x4C, 0x46])
    (hcls : stream.getD 4 0 = 2) (hdata : stream.getD 5 0 = 1)
    (hver : stream.getD 6 0 = 1) (hosabi : stream.getD 7 0 = 0)
    (t : ObjectFileType) (hty : ObjectFileType.tryFrom (u16le stream 16) = .ok t)
    (m : Machine) (hmach : Machine.tryFrom (u16le stream 18) = .ok m)
    (hv32 : u32le stream 20 = 1) :
    ObjectFile.from_reader chunks = .ok
      { header :=
          { ident :=
              { magic := [0x7F, 0x45, 0x4C, 0x46], cls := .Class64,
                data := .LSB2, version := .Current, osabi := .SysV,
                abi_version := stream.getD 8 0,
                pad := ((stream.take 16).drop 9).take 7 },
            ty := t, machine := m, version := 1,
            entry := u64le stream 24, phoff := u64le stream 32,
            shoff := u64le stream 40, flags := u32le stream 48,
            ehsize := u16le stream 52, phentsize := u16le stream 54,
            phnum := u16le stream 56, shentsize := u16le stream 58,
            shnum := u16le stream 60, shstrndx := u16le stream 62 },
        data := stream.drop 64 } := by
  rw [from_reader_eq_fromBytes chunks hne, hj]
  exact fromBytes_valid stream hlen hmagic hcls hdata hver hosabi t hty m hmach
    hv32

/-- Witness for C1 at a concrete valid 64-byte stream delivered in one
chunk. -/
theorem from_reader_valid_header_witness :
    ObjectFile.from_reader [exStream64] = .ok
      { header := exHeader 0 0 0 0, data := [] } := by
  rw [from_reader_valid_header [exStream64] exStream64 (by decide) (by decide)
    (by decide) (by decide) (by decide) (by decide) (by decide) (by decide)
    ObjectFileType.Rel (by decide) Machine.X86_64 (by decide) (by decide)]
  decide

/-- C2 counterexample: with class byte 3 and every other identification and
header byte well-formed 64-bit-shaped data, `ObjectFile.from_reader` fails
with `invalid ELF class` (raised by the class enumeration decoder) and not
with `unsupported format` as the claim states. -/
theorem from_reader_class3_counterexample :
    exStreamClass3.getD 4 0 = 3 ∧
    exStreamClass3.take 4 = [0x7F, 0x45, 0x4C, 0x46] ∧
    exStreamClass3.getD 5 0 = 1 ∧ exStreamClass3.getD 6 0 = 1 ∧
    exStreamClass3.getD 7 0 = 0 ∧
    ObjectFile.from_reader [exStreamClass3] = .error "invalid ELF class" ∧
    ObjectFile.from_reader [exStreamClass3] ≠ .error "unsupported format" := by
  decide

/-- C2 (amended): for every input whose identification block carries a class
byte other than 2 while the other identification bytes are well-formed,
`ObjectFile.from_reader` fails; the error is `unsupported format` when the
class byte is 0 or 1 (a known class that fails the acceptance policy), and
`invalid ELF class` when the class byte is not a known class value at
all. -/
theorem from_reader_class_ne_2_fails (chunks : List (List Nat))
    (stream : List Nat) (hne : ∀ c ∈ chunks, c ≠ [])
    (hj : chunks.flatten = stream) (hlen : 16 ≤ stream.length)
    (hmagic : stream.take 4 = [0x7F, 0x45, 0x4C, 0x46])
    (hdata : stream.getD 5 0 = 1) (hver : stream.getD 6 0 = 1)
    (hosabi : stream.getD 7 0 = 0) :
    (stream.getD 4 0 = 0 ∨ stream.getD 4 0 = 1 →
      ObjectFile.from_reader chunks = .error "unsupported format") ∧
    (stream.getD 4 0 ≠ 0 ∧ stream.getD 4 0 ≠ 1 ∧ stream.getD 4 0 ≠ 2 →
      ObjectFile.from_reader chunks = .error "invalid ELF class") := by
  rw [from_reader_eq_fromBytes chunks hne, hj]
  have htk4 : (stream.take 16).take 4 = [0x7F, 0x45, 0x4C, 0x46] := by
    rw [List.take_take]
    simpa using hmagic
  have hg4 : (stream.take 16).getD 4 0 = stream.getD 4 0 :=
    getD_take_of_lt _ _ _ (by omega)
  have hg5 : (stream.take 16).getD 5 0 = 1 := by
    rw [getD_take_of_lt _ _ _ (by omega)]
    exact hdata
  have hg6 : (stream.take 16).getD 6 0 = 1 := by
    rw [getD_take_of_lt _ _ _ (by omega)]
    exact hver
  have hg7 : (stream.take 16).getD 7 0 = 0 := by
    rw [getD_take_of_lt _ _ _ (by omega)]
    exact hosabi
  constructor
  · rintro (h0 | h0)
    · unfold ObjectFile.fromBytes ElfIdent.from_bytes
      rw [if_neg (by omega), htk4, hg4, h0, hg5, hg6, hg7]
      rfl
    · unfold ObjectFile.fromBytes ElfIdent.from_bytes
      rw [if_neg (by omega), htk4, hg4, h0, hg5, hg6, hg7]
      rfl
  · rintro ⟨h0, h1, h2⟩
    unfold ObjectFile.fromBytes ElfIdent.from_bytes
    rw [if_neg (by omega), htk4, hg4, ElfClass.tryFrom_unknown _ h0 h1 h2]
    rfl

/-- Witness for the amended C2 at a concrete 32-bit-class stream. -/
theorem from_reader_class_ne_2_fails_witness :
    ObjectFile.from_reader [exStreamClass1] = .error "unsupported format" :=
  (from_reader_class_ne_2_fails [exStreamClass1] exStreamClass1 (by decide)
    (by decide) (by decide) (by decide) (by decide) (by decide)
    (by decide)).1 (Or.inr (by decide))

/-- C3 counterexample: an `ObjectFile` declaring one section header at
offset 64 over an empty trailing buffer produces (through
`section_headers`) an iterator whose first pull yields the size-error item,
and whose next pull produces an item again — the same error — so the
sequence is not exhausted after the error item as the claim states. -/
theorem section_iter_error_not_terminal_counterexample :
    ObjectFile.section_headers { header := exHeader 64 0 1 0, data := [] } =
      some { head := [], len := 1, pos := 0 } ∧
    (SectionHeaderIter.next { head := [], len := 1, pos := 0 }).1 =
      some (.error "the size of a section header is invalid") ∧
    (SectionHeaderIter.next
        (SectionHeaderIter.next { head := [], len := 1, pos := 0 }).2).1 =
      some (.error "the size of a section header is invalid") := by
  decide

/-- C3 (amended): when the remaining byte window holds fewer bytes than one
full entry while the position has not reached entry_size times the declared
count, the pull yields the size-error item with the iterator state
unchanged, and every subsequent pull yields the very same error item again —
the iterator is not exhausted by the error; it is the caller stopping at the
first error that makes the error terminal in practice. -/
theorem truncated_window_error_repeats :
    (∀ s : SectionHeaderIter, s.pos < 64 * s.len →
      s.head.length - s.pos < 64 →
      s.next = (some (.error "the size of a section header is invalid"), s) ∧
      ∀ k, (s.stepN k).next.1 =
        some (.error "the size of a section header is invalid")) ∧
    (∀ p : ProgramHeaderIter, p.pos < 56 * p.len →
      p.head.length - p.pos < 56 →
      p.next = (some (.error "the size of a program header is invalid"), p) ∧
      ∀ k, (p.stepN k).next.1 =
        some (.error "the size of a program header is invalid")) := by
  constructor
  · intro s hpos hwin
    have hnext : s.next =
        (some (.error "the size of a section header is invalid"), s) := by
      unfold SectionHeaderIter.next
      rw [if_neg (by omega), if_pos (by omega)]
    refine ⟨hnext, fun k => ?_⟩
    rw [section_stepN_of_fixed s (by rw [hnext]) k, hnext]
  · intro p hpos hwin
    have hnext : p.next =
        (some (.error "the size of a program header is invalid"), p) := by
      unfold ProgramHeaderIter.next
      rw [if_neg (by omega), if_pos (by omega)]
    refine ⟨hnext, fun k => ?_⟩
    rw [program_stepN_of_fixed p (by rw [hnext]) k, hnext]

/-- Witness for the amended C3 at a concrete truncated iterator state. -/
theorem truncated_window_error_repeats_witness :
    SectionHeaderIter.next { head := [], len := 1, pos := 0 } =
      (some (.error "the size of a section header is invalid"),
        { head := [], len := 1, pos := 0 }) ∧
    (SectionHeaderIter.stepN { head := [], len := 1, pos := 0 } 2).next.1 =
      some (.error "the size of a section header is invalid") :=
  ⟨(truncated_window_error_repeats.1 { head := [], len := 1, pos := 0 }
      (by decide) (by decide)).1,
   (truncated_window_error_repeats.1 { head := [], len := 1, pos := 0 }
      (by decide) (by decide)).2 2⟩

/-- C4: when `shoff` is non-zero the window computation of
`section_headers` (slicing the trailing buffer at `shoff - 64`) is in
bounds exactly under the precondition `64 ≤ shoff ≤ 64 + data.length`; the
code performs no check, so some `ObjectFile` values with non-zero `shoff` —
below the fixed header size (subtraction underflow) or beyond the end of
the trailing buffer — make `section_headers` panic (modelled as `none`)
instead of returning an iterator or an error; symmetrically for `phoff` and
`program_headers`. -/
theorem table_window_bounds :
    (∀ o : ObjectFile, o.header.shoff ≠ 0 →
      (o.section_headers.isSome ↔
        64 ≤ o.header.shoff ∧ o.header.shoff ≤ 64 + o.data.length)) ∧
    (∃ o : ObjectFile, o.header.shoff ≠ 0 ∧ o.header.shoff < 64 ∧
      o.section_headers = none) ∧
    (∃ o : ObjectFile, 64 + o.data.length < o.header.shoff ∧
      o.section_headers = none) ∧
    (∀ o : ObjectFile, o.header.phoff ≠ 0 →
      (o.program_headers.isSome ↔
        64 ≤ o.header.phoff ∧ o.header.phoff ≤ 64 + o.data.length)) ∧
    (∃ o : ObjectFile, o.header.phoff ≠ 0 ∧ o.header.phoff < 64 ∧
      o.program_headers = none) ∧
    (∃ o : ObjectFile, 64 + o.data.length < o.header.phoff ∧
      o.program_headers = none) := by
  refine ⟨?_, ?_, ?_, ?_, ?_, ?_⟩
  · intro o h
    unfold ObjectFile.section_headers
    rw [if_pos h]
    by_cases hb : 64 ≤ o.header.shoff ∧ o.header.shoff - 64 ≤ o.data.length
    · rw [if_pos hb]
      simp only [Option.isSome_some, true_iff]
      omega
    · rw [if_neg hb]
      simp only [Option.isSome_none, Bool.false_eq_true, false_iff]
      intro hc
      rcases not_and_or.mp hb with h1 | h1
      · omega
      · omega
  · exact ⟨{ header := exHeader 1 0 0 0, data := [] }, by decide, by decide,
      by decide⟩
  · exact ⟨{ header := exHeader 200 0 0 0, data := [] }, by decide, by decide⟩
  · intro o h
    unfold ObjectFile.program_headers
    rw [if_pos h]
    by_cases hb : 64 ≤ o.header.phoff ∧ o.header.phoff - 64 ≤ o.data.length
    · rw [if_pos hb]
      simp only [Option.isSome_some, true_iff]
      omega
    · rw [if_neg hb]
      simp only [Option.isSome_none, Bool.false_eq_true, false_iff]
      intro hc
      rcases not_and_or.mp hb with h1 | h1
      · omega
      · omega
  · exact ⟨{ header := exHeader 0 1 0 0, data := [] }, by decide, by decide,
      by decide⟩
  · exact ⟨{ header := exHeader 0 200 0 0, data := [] }, by decide, by decide⟩

/-- Witness for C4 at a concrete in-bounds object. -/
theorem table_window_bounds_witness :
    (({ header := exHeader 65 0 0 0, data := [0] } :
        ObjectFile).section_headers.isSome ↔
      64 ≤ ({ header := exHeader 65 0 0 0, data := [0] } :
        ObjectFile).header.shoff ∧
      ({ header := exHeader 65 0 0 0, data := [0] } :
        ObjectFile).header.shoff ≤ 64 +
        ({ header := exHeader 65 0 0 0, data := [0] } :
          ObjectFile).data.length) :=
  table_window_bounds.1 { header := exHeader 65 0 0 0, data := [0] }
    (by decide)

/-- C5: whenever a section header iterator state (as produced by
`section_headers` and any number of pulls) still expects an entry
(`pos < 64 * len`) but the remaining window holds fewer than 64 bytes, the
pull for that entry returns the `the size of a section header is invalid`
failure with the state unchanged: it does not decode garbage bytes into an
entry and does not panic. -/
theorem section_truncated_entry_error (o : ObjectFile)
    (it : SectionHeaderIter) (k : Nat) (_hit : o.section_headers = some it)
    (hpos : (it.stepN k).pos < 64 * (it.stepN k).len)
    (hwin : (it.stepN k).head.length - (it.stepN k).pos < 64) :
    (it.stepN k).next =
      (some (.error "the size of a section header is invalid"),
        it.stepN k) := by
  unfold SectionHeaderIter.next
  rw [if_neg (by omega), if_pos (by omega)]

/-- Witness for C5 at a concrete truncated object. -/
theorem section_truncated_entry_error_witness :
    (SectionHeaderIter.stepN { head := [], len := 1, pos := 0 } 0).next =
      (some (.error "the size of a section header is invalid"),
        SectionHeaderIter.stepN { head := [], len := 1, pos := 0 } 0) :=
  section_truncated_entry_error { header := exHeader 64 0 1 0, data := [] }
    { head := [], len := 1, pos := 0 } 0 (by decide) (by decide) (by decide)

/-- C6: with `shoff = 0`, `section_headers` yields the whole-buffer iterator
with declared count zero, and every pull — the first and all later ones —
produces no item, no matter what `shnum` says; symmetrically `phoff = 0`
makes `program_headers` empty regardless of `phnum`. -/
theorem zero_offset_empty_table :
    (∀ o : ObjectFile, o.header.shoff = 0 →
      o.section_headers = some { head := o.data, len := 0, pos := 0 } ∧
      ∀ k, (SectionHeaderIter.stepN
        { head := o.data, len := 0, pos := 0 } k).next.1 = none) ∧
    (∀ o : ObjectFile, o.header.phoff = 0 →
      o.program_headers = some { head := o.data, len := 0, pos := 0 } ∧
      ∀ k, (ProgramHeaderIter.stepN
        { head := o.data, len := 0, pos := 0 } k).next.1 = none) := by
  constructor
  · intro o h
    have hnext : (SectionHeaderIter.next
        { head := o.data, len := 0, pos := 0 }) =
        (none, { head := o.data, len := 0, pos := 0 }) := by
      unfold SectionHeaderIter.next
      rw [if_pos (by simp)]
    refine ⟨?_, fun k => ?_⟩
    · unfold ObjectFile.section_headers
      rw [if_neg (by simp [h])]
    · rw [section_stepN_of_fixed _ (by rw [hnext]) k, hnext]
  · intro o h
    have hnext : (ProgramHeaderIter.next
        { head := o.data, len := 0, pos := 0 }) =
        (none, { head := o.data, len := 0, pos := 0 }) := by
      unfold ProgramHeaderIter.next
      rw [if_pos (by simp)]
    refine ⟨?_, fun k => ?_⟩
    · unfold ObjectFile.program_headers
      rw [if_neg (by simp [h])]
    · rw [program_stepN_of_fixed _ (by rw [hnext]) k, hnext]

/-- Witness for C6 at a concrete object with `shoff = 0` and non-zero
`shnum`. -/
theorem zero_offset_empty_table_witness :
    ({ header := exHeader 0 0 5 0, data := [1, 2, 3] } :
      ObjectFile).section_headers =
      some { head := [1, 2, 3], len := 0, pos := 0 } ∧
    (SectionHeaderIter.stepN { head := [1, 2, 3], len := 0, pos := 0 }
      3).next.1 = none :=
  ⟨(zero_offset_empty_table.1 { header := exHeader 0 0 5 0, data := [1, 2, 3] }
      (by decide)).1,
   (zero_offset_empty_table.1 { header := exHeader 0 0 5 0, data := [1, 2, 3] }
      (by decide)).2 3⟩

/-- C7: a raw 64-bit section-flags value decodes successfully iff no bit
outside the union of the named flag bits and the reserved masks is set
(`raw AND NOT 0xFF000FF7 = 0`, written with the 64-bit complement literal
`0xFFFFFFFF00FFF008`), and the decoded flag set keeps the raw bits exactly —
in particular raw `0x1` yields a set whose only named bit is WRITE; in the
section header iterator an out-of-range bit yields the decode failure
`a section has invalid flags: 0x...` reporting the raw value in lowercase
hexadecimal; symmetrically a raw 32-bit segment-flags value is accepted iff
`raw AND NOT 0xF0000007 = 0` (32-bit complement literal `0x0FFFFFF8`). -/
theorem flags_decode_policy :
    (∀ raw : Nat, raw < 2 ^ 64 →
      ((SectionFlag64.from_bits raw).isSome ↔
        raw &&& 0xFFFFFFFF00FFF008 = 0) ∧
      ∀ f, SectionFlag64.from_bits raw = some f → f.bits = raw) ∧
    (SectionFlag64.from_bits 0x1 = some ⟨0x1⟩ ∧
      0x1 &&& SectionFlag64.NAMED_MASK = SectionFlag64.WRITE) ∧
    (∀ (s : SectionHeaderIter) (ty : SectionType),
      s.pos < 64 * s.len → 64 ≤ s.head.length - s.pos →
      SectionType.tryFrom (u32le ((s.head.drop s.pos).take 64) 4) = .ok ty →
      SectionFlag64.from_bits (u64le ((s.head.drop s.pos).take 64) 8) = none →
      s.next.1 = some (.error ("a section has invalid flags: 0x" ++
        hexStr (u64le ((s.head.drop s.pos).take 64) 8)))) ∧
    (∀ raw : Nat, raw < 2 ^ 32 →
      ((SegmentFlag.from_bits raw).isSome ↔ raw &&& 0x0FFFFFF8 = 0)) := by
  refine ⟨?_, ⟨by decide, by decide⟩, ?_, ?_⟩
  · intro raw hraw
    constructor
    · unfold SectionFlag64.from_bits
      by_cases hc : raw &&& SectionFlag64.MASK = raw
      · rw [if_pos hc]
        simp only [Option.isSome_some, true_iff]
        exact (land_mask_eq_self_iff raw SectionFlag64.MASK
          0xFFFFFFFF00FFF008 64 hraw (by decide) (by decide)).mp hc
      · rw [if_neg hc]
        simp only [Option.isSome_none, Bool.false_eq_true, false_iff]
        intro h0
        exact hc ((land_mask_eq_self_iff raw SectionFlag64.MASK
          0xFFFFFFFF00FFF008 64 hraw (by decide) (by decide)).mpr h0)
    · intro f hf
      unfold SectionFlag64.from_bits at hf
      by_cases hc : raw &&& SectionFlag64.MASK = raw
      · rw [if_pos hc] at hf
        cases hf
        rfl
      · rw [if_neg hc] at hf
        cases hf
  · intro s ty hpos hwin hty hflags
    unfold SectionHeaderIter.next
    rw [if_neg (by omega), if_neg (by omega)]
    dsimp only
    rw [hty]
    dsimp only
    rw [hflags]
  · intro raw hraw
    unfold SegmentFlag.from_bits
    by_cases hc : raw &&& SegmentFlag.MASK = raw
    · rw [if_pos hc]
      simp only [Option.isSome_some, true_iff]
      exact (land_mask_eq_self_iff raw SegmentFlag.MASK 0x0FFFFFF8 32 hraw
        (by decide) (by decide)).mp hc
    · rw [if_neg hc]
      simp only [Option.isSome_none, Bool.false_eq_true, false_iff]
      intro h0
      exact hc ((land_mask_eq_self_iff raw SegmentFlag.MASK 0x0FFFFFF8 32 hraw
        (by decide) (by decide)).mpr h0)

/-- Witness for C7 at concrete raw flag values and a concrete entry with an
out-of-range flag bit (0x8). -/
theorem flags_decode_policy_witness :
    ((SectionFlag64.from_bits 0x1).isSome ↔
      0x1 &&& 0xFFFFFFFF00FFF008 = 0) ∧
    (SectionHeaderIter.next { head := exBadFlagsEntry, len := 1, pos := 0 }).1 =
      some (.error ("a section has invalid flags: 0x" ++ hexStr 8)) ∧
    ((SegmentFlag.from_bits 0x8).isSome ↔ 0x8 &&& 0x0FFFFFF8 = 0) := by
  refine ⟨(flags_decode_policy.1 0x1 (by decide)).1, ?_,
    flags_decode_policy.2.2.2 0x8 (by decide)⟩
  have h := flags_decode_policy.2.2.1
    { head := exBadFlagsEntry, len := 1, pos := 0 } SectionType.Null
    (by decide) (by decide) (by decide) (by decide)
  rw [h]
  decide

/-- C8: whenever a section- or program-header pull returns an error item (in
particular a type or flag decode error), the iterator's position is
unchanged by that pull, so the next pull reads from the same position and,
on the unchanged input, returns an equal result. -/
theorem decode_error_preserves_position :
    (∀ (s : SectionHeaderIter) (e : String),
      s.next.1 = some (.error e) → s.next.2 = s ∧ s.next.2.next = s.next) ∧
    (∀ (p : ProgramHeaderIter) (e : String),
      p.next.1 = some (.error e) → p.next.2 = p ∧ p.next.2.next = p.next) := by
  constructor
  · intro s e h
    rcases section_next_state s with h2 | ⟨hdr, h2⟩
    · exact ⟨h2, by rw [h2]⟩
    · rw [h] at h2
      simp at h2
  · intro p e h
    rcases program_next_state p with h2 | ⟨hdr, h2⟩
    · exact ⟨h2, by rw [h2]⟩
    · rw [h] at h2
      simp at h2

/-- Witness for C8 at a concrete erroring pull. -/
theorem decode_error_preserves_position_witness :
    (SectionHeaderIter.next { head := [], len := 1, pos := 0 }).2 =
      { head := [], len := 1, pos := 0 } ∧
    ((SectionHeaderIter.next { head := [], len := 1, pos := 0 }).2).next =
      SectionHeaderIter.next { head := [], len := 1, pos := 0 } :=
  decode_error_preserves_position.1 { head := [], len := 1, pos := 0 }
    "the size of a section header is invalid" (by decide)

/-- C9: identification bytes whose first four bytes are not exactly
0x7F `E` `L` `F` make `ElfIdent.from_bytes` fail with
`magic is not for ELF`, regardless of all remaining bytes — and hence
`ObjectFile.from_reader` fails the same way on any byte source beginning
with such a 16-byte identification block. -/
theorem bad_magic_rejected :
    (∀ bytes : List Nat, bytes.take 4 ≠ [0x7F, 0x45, 0x4C, 0x46] →
      ElfIdent.from_bytes bytes = .error "magic is not for ELF") ∧
    (∀ (chunks : List (List Nat)) (ident16 rest : List Nat),
      (∀ c ∈ chunks, c ≠ []) → chunks.flatten = ident16 ++ rest →
      ident16.length = 16 → ident16.take 4 ≠ [0x7F, 0x45, 0x4C, 0x46] →
      ObjectFile.from_reader chunks = .error "magic is not for ELF") := by
  have hpart1 : ∀ bytes : List Nat,
      bytes.take 4 ≠ [0x7F, 0x45, 0x4C, 0x46] →
      ElfIdent.from_bytes bytes = .error "magic is not for ELF" := by
    intro bytes h
    unfold ElfIdent.from_bytes
    rw [if_pos h]
  refine ⟨hpart1, ?_⟩
  intro chunks ident16 rest hne hj hlen hmagic
  rw [from_reader_eq_fromBytes chunks hne, hj]
  unfold ObjectFile.fromBytes
  rw [if_neg (by rw [List.length_append, hlen]; omega)]
  have htake : (ident16 ++ rest).take 16 = ident16 := by
    rw [← hlen, List.take_left]
  rw [htake, hpart1 ident16 hmagic]

/-- Witness for C9 at a concrete stream with a broken first magic byte. -/
theorem bad_magic_rejected_witness :
    ObjectFile.from_reader [exBadMagic] = .error "magic is not for ELF" :=
  bad_magic_rejected.2 [exBadMagic] exBadMagic [] (by decide) (by decide)
    (by decide) (by decide)

/-- C10: decoding is deterministic — two `from_reader` constructions from
byte sources yielding the same bytes (any chunkings with equal
concatenations) produce the same result: the same error, or containers with
equal headers, equal trailing buffers, and equal section- and
program-header iterators (hence pointwise-identical pull sequences). -/
theorem from_reader_deterministic (c1 c2 : List (List Nat))
    (h1 : ∀ c ∈ c1, c ≠ []) (h2 : ∀ c ∈ c2, c ≠ [])
    (hj : c1.flatten = c2.flatten) :
    ObjectFile.from_reader c1 = ObjectFile.from_reader c2 ∧
    ∀ o1 o2, ObjectFile.from_reader c1 = .ok o1 →
      ObjectFile.from_reader c2 = .ok o2 →
      o1.header = o2.header ∧ o1.data = o2.data ∧
      o1.section_headers = o2.section_headers ∧
      o1.program_headers = o2.program_headers := by
  have he : ObjectFile.from_reader c1 = ObjectFile.from_reader c2 := by
    rw [from_reader_eq_fromBytes c1 h1, from_reader_eq_fromBytes c2 h2, hj]
  refine ⟨he, ?_⟩
  intro o1 o2 ho1 ho2
  rw [he, ho2] at ho1
  injection ho1 with h3
  subst h3
  exact ⟨rfl, rfl, rfl, rfl⟩

/-- Witness for C10 at two different chunkings of the same valid stream. -/
theorem from_reader_deterministic_witness :
    ObjectFile.from_reader [exStream64.take 10, exStream64.drop 10] =
      ObjectFile.from_reader [exStream64] :=
  (from_reader_deterministic [exStream64.take 10, exStream64.drop 10]
    [exStream64] (by decide) (by decide) (by decide)).1

end Krc
